import Mathlib

/-!
Verification of the auction bidding engine of the auction-hub backend.

The definitions below are a shallow embedding of the Python sources under
`src/backend/app`: enumerations and records mirror `models/`, query and
mutation helpers mirror `repositories/`, and the endpoint functions mirror
`routers/v1/`.  Timestamps are integers (seconds); SQL row sets are Lean
lists kept in insertion (primary-key) order.  A SQL
`ORDER BY price DESC ... FIRST` with no secondary sort key guarantees no
order among equal prices; the executable model must still pick one row, and
picks the earliest-inserted.  That determinization is a modelling
convention, not a property of the program, and no theorem below depends on
which equal-priced row is returned.
-/

namespace AuctionHub

/-- Bid status enumeration (`models/enums.py`, `BidStatus`). -/
inductive BidStatus
  | active | outbid | winning | won | lost | cancelled
  deriving DecidableEq, Repr

/-- Auction status enumeration (`models/enums.py`, `AuctionStatus`). -/
inductive AuctionStatus
  | draft | scheduled | ongoing | completed | cancelled
  deriving DecidableEq, Repr

/-- Bid row (`models/bid.py`).  `createdAt` is a timestamp in seconds. -/
structure Bid where
  bidID : Nat
  auctionID : Nat
  userID : Nat
  bidPrice : Int
  bidStatus : BidStatus
  createdAt : Int
  deriving DecidableEq, Repr

/-- Auction row (`models/auction.py`), restricted to the fields the bidding
engine reads or writes. -/
structure Auction where
  auctionID : Nat
  startDate : Int
  endDate : Int
  priceStep : Int
  auctionStatus : AuctionStatus
  bidWinnerID : Option Nat
  deriving DecidableEq, Repr

/-- The database rows relevant to one auction: its auction row and the bid
table rows in insertion (primary-key) order. -/
structure AuctionState where
  auction : Auction
  bids : List Bid
  deriving DecidableEq, Repr

/-- Five minutes, in seconds (`timedelta(minutes=5)`). -/
def fiveMinutes : Int := 300

/-- Ten minutes, in seconds (`timedelta(minutes=10)`). -/
def tenMinutes : Int := 600

/-- The statuses counted by `get_current_highest_bid`'s filter
(`bidStatus.in_([ACTIVE, WINNING, WON])`). -/
def countedStatus : BidStatus → Bool
  | .active | .winning | .won => true
  | _ => false

/-- `order_by(bidPrice.desc()).first()` over rows in insertion order.  The
SQL query has no secondary sort key, so its order among equal prices is
unspecified; this executable model resolves the nondeterminism by returning
the earliest-inserted row among those of maximal price.  Only membership
and maximality of the result reflect guarantees of the query itself. -/
def firstMaxByPrice : List Bid → Option Bid
  | [] => none
  | b :: bs =>
    match firstMaxByPrice bs with
    | none => some b
    | some m => if m.bidPrice > b.bidPrice then some m else some b

/-- `repositories/bid.py`, `get_current_highest_bid`. -/
def get_current_highest_bid (bids : List Bid) (auction_id : Nat) : Option Bid :=
  firstMaxByPrice
    (bids.filter fun b => b.auctionID == auction_id && countedStatus b.bidStatus)

/-- `repositories/bid.py`, `get_bid`. -/
def get_bid (bids : List Bid) (bid_id : Nat) : Option Bid :=
  bids.find? fun b => b.bidID == bid_id

/-- The row inserted by `repositories/bid.py`, `create_bid`. -/
def new_bid (auction_id user_id : Nat) (bid_price : Int) (new_id : Nat)
    (now : Int) : Bid :=
  { bidID := new_id, auctionID := auction_id, userID := user_id,
    bidPrice := bid_price, bidStatus := .active, createdAt := now }

/-- `repositories/bid.py`, `create_bid`: insert a new row with status ACTIVE
and `createdAt = now`. -/
def create_bid (bids : List Bid) (auction_id user_id : Nat) (bid_price : Int)
    (new_id : Nat) (now : Int) : List Bid :=
  bids ++ [new_bid auction_id user_id bid_price new_id now]

/-- `repositories/bid.py`, `cancel_bid`: mark the row CANCELLED if it exists
and belongs to the user; report success. -/
def cancel_bid_db (bids : List Bid) (bid_id user_id : Nat) : Bool × List Bid :=
  match get_bid bids bid_id with
  | none => (false, bids)
  | some b =>
    if b.userID ≠ user_id then (false, bids)
    else (true, bids.map fun x =>
      if x.bidID == bid_id then { x with bidStatus := .cancelled } else x)

/-- Winner resolution inside `repositories/auction.py`,
`check_and_update_status` (lines 31-49): the highest ACTIVE bid, if any, is
marked WINNING and every other ACTIVE bid of the auction is marked LOST. -/
def resolve_winner (auction_id : Nat) (bids : List Bid) :
    Option Bid × List Bid :=
  match firstMaxByPrice
      (bids.filter fun b => b.auctionID == auction_id && b.bidStatus == .active) with
  | none => (none, bids)
  | some hb =>
    (some hb,
     bids.map fun b =>
       if b.bidID == hb.bidID then { b with bidStatus := .winning }
       else if b.auctionID == auction_id && b.bidStatus == .active then
         { b with bidStatus := .lost }
       else b)

/-- `repositories/auction.py`, `check_and_update_status`: lazily advance the
auction status from wall-clock time; on the ONGOING → COMPLETED transition
resolve the winner and set `bidWinnerID`. -/
def check_and_update_status (now : Int) (st : AuctionState) : AuctionState :=
  let a := st.auction
  let a := if a.auctionStatus = .scheduled ∧ now ≥ a.startDate then
      { a with auctionStatus := .ongoing } else a
  if a.auctionStatus = .ongoing ∧ now ≥ a.endDate then
    match resolve_winner a.auctionID st.bids with
    | (some hb, bids) =>
      { auction := { a with auctionStatus := .completed,
                            bidWinnerID := some hb.userID },
        bids := bids }
    | (none, bids) =>
      { auction := { a with auctionStatus := .completed }, bids := bids }
  else { st with auction := a }

/-- The error branch taken by `utils/validators.py`, `validate_price`. -/
inductive PriceError
  | tooLow (min_price : Int)
  | tooHigh (max_price : Int)
  deriving DecidableEq, Repr

/-- `utils/validators.py`, `validate_price`.  `max_price = 0` models a falsy
Python argument (`None`/`0`): the upper-bound check is skipped. -/
def validate_price (price min_price max_price : Int) :
    Bool × Option PriceError :=
  if price < min_price then (false, some (.tooLow min_price))
  else if max_price ≠ 0 ∧ price > max_price then
    (false, some (.tooHigh max_price))
  else (true, none)

/-- `utils/validators.py`, `validate_date_range`.  Durations are in seconds;
`duration.days` is the duration divided by 86400.  A zero bound models a
falsy Python argument: that check is skipped. -/
def validate_date_range (start_date end_date : Int)
    (min_duration_hours max_duration_days : Int) : Bool :=
  if end_date ≤ start_date then false
  else if min_duration_hours ≠ 0 ∧
      end_date - start_date < min_duration_hours * 3600 then false
  else if max_duration_days ≠ 0 ∧
      (end_date - start_date) / 86400 > max_duration_days then false
  else true

/-- `schemas/auction.py`, `AuctionUpdate`, restricted to the fields the
engine claims touch; an omitted field is `none` (pydantic `exclude_unset`). -/
structure AuctionUpdate where
  startDate : Option Int := none
  endDate : Option Int := none
  priceStep : Option Int := none
  deriving DecidableEq, Repr

/-- `repositories/auction.py`, `update_auction`: fetch with lazy
reconciliation, set the supplied fields, then reconcile again. -/
def update_auction_db (now : Int) (st : AuctionState) (u : AuctionUpdate) :
    AuctionState :=
  let st := check_and_update_status now st
  let a := st.auction
  let a := match u.startDate with
    | some s => { a with startDate := s }
    | none => a
  let a := match u.endDate with
    | some e => { a with endDate := e }
    | none => a
  let a := match u.priceStep with
    | some p => { a with priceStep := p }
    | none => a
  check_and_update_status now { st with auction := a }

/-- The error taxonomy of `routers/v1/bids.py`, `place_bid` (UC17). -/
inductive PlaceBidError
  | auctionNotFound
  | auctionNotActive
  | depositRequired
  | bidTooLow (min_bid : Int)
  deriving DecidableEq, Repr

/-- The success payload of `routers/v1/bids.py`, `place_bid`. -/
structure PlaceBidResult where
  bid_id : Nat
  bid_status : BidStatus
  extended : Bool
  end_date : Int
  deriving DecidableEq, Repr

/-- `routers/v1/bids.py`, `place_bid` (UC17): reconcile, check the time
window and status, verify the deposit (`has_deposit` models the completed
deposit Payment lookup), validate the amount against the current highest
counted bid plus the price step with upper bound 999999999, insert the bid
as ACTIVE, and extend `endDate` by five minutes when at most five minutes
remain.  On rejection the HTTP detail is always
"Bid must be at least (computed minimum)", modelled by `bidTooLow`.
Returns the database state after the call together with the outcome. -/
def place_bid (now : Int) (user_id auction_id : Nat) (bid_price : Int)
    (has_deposit : Bool) (new_id : Nat) (st : AuctionState) :
    AuctionState × Except PlaceBidError PlaceBidResult :=
  if st.auction.auctionID ≠ auction_id then (st, .error .auctionNotFound) else
  let st := check_and_update_status now st
  let auction := st.auction
  if ¬ (auction.startDate ≤ now ∧ now ≤ auction.endDate) then
    (st, .error .auctionNotActive)
  else if auction.auctionStatus ≠ .ongoing then
    (st, .error .auctionNotActive)
  else if ¬ has_deposit then
    (st, .error .depositRequired)
  else
    let min_bid := match get_current_highest_bid st.bids auction_id with
      | some hb => hb.bidPrice + auction.priceStep
      | none => auction.priceStep
    if ¬ (validate_price bid_price min_bid 999999999).1 then
      (st, .error (.bidTooLow min_bid))
    else
      let st : AuctionState :=
        { st with bids := create_bid st.bids auction_id user_id bid_price new_id now }
      if auction.endDate - now ≤ fiveMinutes then
        let st := update_auction_db now st
          { endDate := some (auction.endDate + fiveMinutes) }
        (st, .ok { bid_id := new_id, bid_status := .active, extended := true,
                   end_date := st.auction.endDate })
      else
        (st, .ok { bid_id := new_id, bid_status := .active, extended := false,
                   end_date := auction.endDate })

/-- The error taxonomy of `routers/v1/bids.py`, `cancel_bid` (UC18):
`invalidState` covers the HTTP 400 rejections (bid not active, auction
ended, leading inside the last ten minutes). -/
inductive CancelBidError
  | notFound
  | permissionDenied
  | invalidState
  | internalError
  deriving DecidableEq, Repr

/-- `routers/v1/bids.py`, `cancel_bid` (UC18): the bid must exist, belong to
the requester, and be ACTIVE; the auction is then fetched (lazily
reconciled) and must not have ended; if the requester holds the current
highest counted bid, cancellation is refused within the last ten minutes
and otherwise extends `endDate` by five minutes; finally the repository
marks the bid CANCELLED. -/
def cancel_bid (now : Int) (requester_id bid_id : Nat) (st : AuctionState) :
    AuctionState × Except CancelBidError Unit :=
  match get_bid st.bids bid_id with
  | none => (st, .error .notFound)
  | some bid =>
    if bid.userID ≠ requester_id then (st, .error .permissionDenied)
    else if bid.bidStatus ≠ .active then (st, .error .invalidState)
    else if st.auction.auctionID ≠ bid.auctionID then (st, .error .notFound)
    else
      let st := check_and_update_status now st
      let time_diff := st.auction.endDate - now
      if time_diff ≤ 0 then (st, .error .invalidState)
      else
        let leading := match get_current_highest_bid st.bids bid.auctionID with
          | some hb => hb.userID == requester_id
          | none => false
        if leading = true ∧ time_diff ≤ tenMinutes then (st, .error .invalidState)
        else
          let st := if leading = true ∧ time_diff > tenMinutes then
              update_auction_db now st
                { endDate := some (st.auction.endDate + fiveMinutes) }
            else st
          match cancel_bid_db st.bids bid_id requester_id with
          | (true, bids) => ({ st with bids := bids }, .ok ())
          | (false, _) => (st, .error .internalError)

/-- The error taxonomy of `routers/v1/auctions.py`, `update_auction`. -/
inductive UpdateAuctionError
  | notFound
  | validationError
  | invalidState
  deriving DecidableEq, Repr

/-- `routers/v1/auctions.py`, `update_auction` (admin PUT): date-range
validation (min duration 1 hour, max 30 days) runs only when BOTH dates are
supplied; price-step validation (1000..100000000) only when the supplied
step is truthy (nonzero); an ONGOING auction is rejected; then the
repository applies the supplied fields. -/
def update_auction_api (now : Int) (auction_id : Nat) (u : AuctionUpdate)
    (st : AuctionState) : AuctionState × Except UpdateAuctionError Auction :=
  if st.auction.auctionID ≠ auction_id then (st, .error .notFound) else
  let st := check_and_update_status now st
  let datesOk := match u.startDate, u.endDate with
    | some s, some e => validate_date_range s e 1 30
    | _, _ => true
  if ¬ datesOk = true then (st, .error .validationError)
  else
    let stepOk := match u.priceStep with
      | some p => if p ≠ 0 then (validate_price p 1000 100000000).1 else true
      | none => true
    if ¬ stepOk = true then (st, .error .validationError)
    else if st.auction.auctionStatus = .ongoing then (st, .error .invalidState)
    else
      let st := update_auction_db now st u
      (st, .ok st.auction)

/-- A durable notification row (`repositories/notification.py`,
`create_notification`), restricted to the fields the engine writes. -/
structure NotificationRow where
  userID : Nat
  auctionID : Nat
  kind : String
  deriving DecidableEq, Repr

/-- Where, if anywhere, an exception is raised inside the notification
try-block of `place_bid` (`routers/v1/bids.py` lines 118-180). -/
inductive NotifyFailure
  | broadcastRaises
  | notificationCreateRaises
  | emailRaises
  deriving DecidableEq, Repr

/-- The notification try-block of `place_bid`: broadcast to participants,
then, when a previous highest bid by a different user exists, create a
durable outbid notification and send an outbid e-mail.  An exception at any
of the three points aborts the rest of the block; rows created before the
exception remain. -/
def notify_step (prev : Option Bid) (user_id auction_id : Nat)
    (notifs : List NotificationRow) (failure : Option NotifyFailure) :
    List NotificationRow :=
  match failure with
  | some .broadcastRaises => notifs
  | _ =>
    match prev with
    | some hb =>
      if hb.userID ≠ user_id then
        match failure with
        | some .notificationCreateRaises => notifs
        | _ => notifs ++ [⟨hb.userID, auction_id, "bid_outbid"⟩]
      else notifs
    | none => notifs

/-- `routers/v1/bids.py`, `place_bid` including the notification try/except
block: the bid commit and anti-snipe extension run first, then notification
fan-out runs inside `try`, and any exception (`failure`) is caught and
swallowed, leaving the committed state and the success response intact. -/
def place_bid_with_notify (now : Int) (user_id auction_id : Nat)
    (bid_price : Int) (has_deposit : Bool) (new_id : Nat) (st : AuctionState)
    (notifs : List NotificationRow) (failure : Option NotifyFailure) :
    AuctionState × List NotificationRow × Except PlaceBidError PlaceBidResult :=
  let r := place_bid now user_id auction_id bid_price has_deposit new_id st
  match r.2 with
  | .error e => (r.1, notifs, .error e)
  | .ok res =>
    let prev := get_current_highest_bid
      (check_and_update_status now st).bids auction_id
    (r.1, notify_step prev user_id auction_id notifs failure, .ok res)

/-! ### Properties of the lazy status reconciler -/

theorem caus_endDate (now : Int) (st : AuctionState) :
    (check_and_update_status now st).auction.endDate = st.auction.endDate := by
  simp only [check_and_update_status]
  split <;> split <;> (try split) <;> simp_all

theorem caus_startDate (now : Int) (st : AuctionState) :
    (check_and_update_status now st).auction.startDate = st.auction.startDate := by
  simp only [check_and_update_status]
  split <;> split <;> (try split) <;> simp_all

theorem caus_auctionID (now : Int) (st : AuctionState) :
    (check_and_update_status now st).auction.auctionID = st.auction.auctionID := by
  simp only [check_and_update_status]
  split <;> split <;> (try split) <;> simp_all

theorem caus_priceStep (now : Int) (st : AuctionState) :
    (check_and_update_status now st).auction.priceStep = st.auction.priceStep := by
  simp only [check_and_update_status]
  split <;> split <;> (try split) <;> simp_all

theorem caus_fixed_of_terminal (now : Int) (st : AuctionState)
    (h : st.auction.auctionStatus = .draft ∨ st.auction.auctionStatus = .completed ∨
         st.auction.auctionStatus = .cancelled) :
    check_and_update_status now st = st := by
  simp only [check_and_update_status]
  rcases h with h | h | h <;> simp [h]

theorem caus_fixed_of_scheduled (now : Int) (st : AuctionState)
    (h : st.auction.auctionStatus = .scheduled) (hn : now < st.auction.startDate) :
    check_and_update_status now st = st := by
  simp only [check_and_update_status]
  simp [h, not_le.mpr hn]

theorem caus_fixed_of_ongoing (now : Int) (st : AuctionState)
    (h : st.auction.auctionStatus = .ongoing) (hn : now < st.auction.endDate) :
    check_and_update_status now st = st := by
  simp only [check_and_update_status]
  simp [h, not_le.mpr hn]

theorem caus_completed_of (now : Int) (st : AuctionState)
    (h2 : now ≥ st.auction.endDate)
    (h : st.auction.auctionStatus = .ongoing ∨
         (st.auction.auctionStatus = .scheduled ∧ now ≥ st.auction.startDate)) :
    (check_and_update_status now st).auction.auctionStatus = .completed := by
  rcases h with h | ⟨h, hs⟩
  · rcases hrw : resolve_winner st.auction.auctionID st.bids with ⟨_ | hb, bids'⟩ <;>
      simp [check_and_update_status, h, h2, hrw]
  · rcases hrw : resolve_winner st.auction.auctionID st.bids with ⟨_ | hb, bids'⟩ <;>
      simp [check_and_update_status, h, hs, h2, hrw]

theorem caus_ongoing_inv (now : Int) (st : AuctionState)
    (h : (check_and_update_status now st).auction.auctionStatus = .ongoing) :
    (check_and_update_status now st).bids = st.bids ∧ now < st.auction.endDate := by
  by_cases h1 : st.auction.auctionStatus = .scheduled ∧ now ≥ st.auction.startDate
  · by_cases h2 : now ≥ st.auction.endDate
    · rw [caus_completed_of now st h2 (Or.inr h1)] at h; simp at h
    · push_neg at h2
      refine ⟨?_, h2⟩
      simp [check_and_update_status, h1.1, h1.2, not_le.mpr h2]
  · rcases hs : st.auction.auctionStatus with _ | _ | _ | _ | _
    · rw [caus_fixed_of_terminal now st (Or.inl hs)] at h; rw [hs] at h; simp at h
    · have hn : now < st.auction.startDate := by
        by_contra hc; exact h1 ⟨hs, not_lt.mp hc⟩
      rw [caus_fixed_of_scheduled now st hs hn] at h; rw [hs] at h; simp at h
    · by_cases h2 : now ≥ st.auction.endDate
      · rw [caus_completed_of now st h2 (Or.inl hs)] at h; simp at h
      · push_neg at h2
        rw [caus_fixed_of_ongoing now st hs h2]
        exact ⟨rfl, h2⟩
    · rw [caus_fixed_of_terminal now st (Or.inr (Or.inl hs))] at h; rw [hs] at h; simp at h
    · rw [caus_fixed_of_terminal now st (Or.inr (Or.inr hs))] at h; rw [hs] at h; simp at h

theorem caus_scheduled_inv (now : Int) (st : AuctionState)
    (h : (check_and_update_status now st).auction.auctionStatus = .scheduled) :
    check_and_update_status now st = st := by
  by_cases h1 : st.auction.auctionStatus = .scheduled ∧ now ≥ st.auction.startDate
  · by_cases h2 : now ≥ st.auction.endDate
    · rw [caus_completed_of now st h2 (Or.inr h1)] at h; simp at h
    · push_neg at h2
      have : (check_and_update_status now st).auction.auctionStatus = .ongoing := by
        simp [check_and_update_status, h1.1, h1.2, not_le.mpr h2]
      rw [this] at h; simp at h
  · rcases hs : st.auction.auctionStatus with _ | _ | _ | _ | _
    · exact caus_fixed_of_terminal now st (Or.inl hs)
    · have hn : now < st.auction.startDate := by
        by_contra hc; exact h1 ⟨hs, not_lt.mp hc⟩
      exact caus_fixed_of_scheduled now st hs hn
    · by_cases h2 : now ≥ st.auction.endDate
      · rw [caus_completed_of now st h2 (Or.inl hs)] at h; simp at h
      · exact caus_fixed_of_ongoing now st hs (not_le.mp h2)
    · exact caus_fixed_of_terminal now st (Or.inr (Or.inl hs))
    · exact caus_fixed_of_terminal now st (Or.inr (Or.inr hs))

theorem caus_idem (now : Int) (st : AuctionState) :
    check_and_update_status now (check_and_update_status now st) =
      check_and_update_status now st := by
  rcases hs : (check_and_update_status now st).auction.auctionStatus with _ | _ | _ | _ | _
  · exact caus_fixed_of_terminal now _ (Or.inl hs)
  · rw [caus_scheduled_inv now st hs, caus_scheduled_inv now st hs]
  · exact caus_fixed_of_ongoing now _ hs
      (by rw [caus_endDate]; exact (caus_ongoing_inv now st hs).2)
  · exact caus_fixed_of_terminal now _ (Or.inr (Or.inl hs))
  · exact caus_fixed_of_terminal now _ (Or.inr (Or.inr hs))

theorem caus_status_step (now : Int) (st : AuctionState) :
    (check_and_update_status now st).auction.auctionStatus = st.auction.auctionStatus ∨
    (st.auction.auctionStatus = .scheduled ∧
      (check_and_update_status now st).auction.auctionStatus = .ongoing) ∨
    (st.auction.auctionStatus = .scheduled ∧
      (check_and_update_status now st).auction.auctionStatus = .completed) ∨
    (st.auction.auctionStatus = .ongoing ∧
      (check_and_update_status now st).auction.auctionStatus = .completed) := by
  simp only [check_and_update_status]
  split <;> split <;> (try split) <;> simp_all



/-! ### Properties of the stable highest-bid query -/

theorem firstMaxByPrice_none_iff (l : List Bid) :
    firstMaxByPrice l = none ↔ l = [] := by
  cases l with
  | nil => simp [firstMaxByPrice]
  | cons a bs =>
    simp only [firstMaxByPrice]
    constructor
    · intro h
      split at h <;> (try split at h) <;> simp_all
    · intro h; simp at h

theorem firstMaxByPrice_mem {l : List Bid} :
    ∀ {b : Bid}, firstMaxByPrice l = some b → b ∈ l := by
  induction l with
  | nil => intro b h; simp [firstMaxByPrice] at h
  | cons a bs ih =>
    intro b h
    simp only [firstMaxByPrice] at h
    cases hm : firstMaxByPrice bs with
    | none => rw [hm] at h; simp at h; simp [h]
    | some m =>
      rw [hm] at h
      by_cases hc : m.bidPrice > a.bidPrice
      · simp [hc] at h
        exact List.mem_cons_of_mem a (ih (h ▸ hm))
      · simp [hc] at h; simp [h]

theorem firstMaxByPrice_max {l : List Bid} :
    ∀ {b : Bid}, firstMaxByPrice l = some b →
      ∀ x ∈ l, x.bidPrice ≤ b.bidPrice := by
  induction l with
  | nil => intro b h; simp [firstMaxByPrice] at h
  | cons a bs ih =>
    intro b h
    simp only [firstMaxByPrice] at h
    cases hm : firstMaxByPrice bs with
    | none =>
      rw [hm] at h; simp at h
      rw [firstMaxByPrice_none_iff] at hm
      subst hm
      simp [← h]
    | some m =>
      rw [hm] at h
      by_cases hc : m.bidPrice > a.bidPrice
      · simp [hc] at h
        intro x hx
        rcases List.mem_cons.mp hx with hx | hx
        · subst hx; rw [← h]; exact le_of_lt hc
        · exact ih (h ▸ hm) x hx
      · simp [hc] at h
        push_neg at hc
        intro x hx
        rcases List.mem_cons.mp hx with hx | hx
        · subst hx; rw [← h]
        · exact le_trans (ih hm x hx) (h ▸ hc)

/-! ### Properties of the repository auction update -/

theorem caus_fixed_scheduled_start {now : Int} {st : AuctionState}
    (h : check_and_update_status now st = st)
    (hs : st.auction.auctionStatus = .scheduled) :
    now < st.auction.startDate := by
  by_contra hc
  push_neg at hc
  by_cases h2 : now ≥ st.auction.endDate
  · have hcc := caus_completed_of now st h2 (Or.inr ⟨hs, hc⟩)
    rw [h, hs] at hcc
    simp at hcc
  · push_neg at h2
    have hcc : (check_and_update_status now st).auction.auctionStatus = .ongoing := by
      simp [check_and_update_status, hs, hc, not_le.mpr h2]
    rw [h, hs] at hcc
    simp at hcc

theorem caus_fixed_ongoing_end {now : Int} {st : AuctionState}
    (h : check_and_update_status now st = st)
    (hs : st.auction.auctionStatus = .ongoing) :
    now < st.auction.endDate := by
  by_contra hc
  push_neg at hc
  have hcc := caus_completed_of now st hc (Or.inl hs)
  rw [h, hs] at hcc
  simp at hcc

theorem caus_fixed_set_end {now : Int} {st : AuctionState}
    (h : check_and_update_status now st = st) {e : Int} (he : now < e) :
    check_and_update_status now
        { st with auction := { st.auction with endDate := e } } =
      { st with auction := { st.auction with endDate := e } } := by
  rcases hs : st.auction.auctionStatus with _ | _ | _ | _ | _
  · exact caus_fixed_of_terminal _ _ (Or.inl hs)
  · have hn : now < st.auction.startDate := caus_fixed_scheduled_start h hs
    exact caus_fixed_of_scheduled _ _ hs hn
  · exact caus_fixed_of_ongoing _ _ hs he
  · exact caus_fixed_of_terminal _ _ (Or.inr (Or.inl hs))
  · exact caus_fixed_of_terminal _ _ (Or.inr (Or.inr hs))

theorem update_auction_db_endDate (now : Int) (st : AuctionState) (e : Int) :
    (update_auction_db now st { endDate := some e }).auction.endDate = e := by
  simp [update_auction_db, caus_endDate]

theorem update_auction_db_startDate (now : Int) (st : AuctionState) (e : Int) :
    (update_auction_db now st { endDate := some e }).auction.startDate =
      st.auction.startDate := by
  simp [update_auction_db, caus_startDate]

theorem update_auction_db_end_only {now : Int} {st : AuctionState}
    (h : check_and_update_status now st = st) {e : Int} (he : now < e) :
    update_auction_db now st { endDate := some e } =
      { st with auction := { st.auction with endDate := e } } := by
  simp only [update_auction_db, h]
  exact caus_fixed_set_end h he

theorem caus_of_empty {now : Int} {st : AuctionState} (h : st.bids = []) :
    (check_and_update_status now st).auction.bidWinnerID =
      st.auction.bidWinnerID ∧
    (check_and_update_status now st).bids = [] := by
  have hrw : resolve_winner st.auction.auctionID st.bids = (none, []) := by
    simp [resolve_winner, h, firstMaxByPrice]
  simp only [check_and_update_status, hrw]
  split <;> split <;> simp_all


/-! ### Inversion of a successful bid placement -/

theorem place_bid_ok_inv (now : Int) (u aid : Nat) (p : Int) (dep : Bool)
    (nid : Nat) (st : AuctionState) (res : PlaceBidResult)
    (h : (place_bid now u aid p dep nid st).2 = .ok res) :
    (check_and_update_status now st).auction.auctionStatus = .ongoing ∧
    (place_bid now u aid p dep nid st).1.bids =
      st.bids ++ [new_bid aid u p nid now] ∧
    ((st.auction.endDate - now ≤ fiveMinutes ∧
        (place_bid now u aid p dep nid st).1.auction.endDate =
          st.auction.endDate + fiveMinutes) ∨
     (st.auction.endDate - now > fiveMinutes ∧
        (place_bid now u aid p dep nid st).1.auction.endDate =
          st.auction.endDate)) := by
  rcases hE : place_bid now u aid p dep nid st with ⟨stR, r⟩
  rw [hE] at h
  simp only [place_bid] at hE
  by_cases h0 : st.auction.auctionID ≠ aid
  · rw [if_pos h0] at hE; cases hE; simp at h
  rw [if_neg h0] at hE
  by_cases h1 : ¬((check_and_update_status now st).auction.startDate ≤ now ∧
      now ≤ (check_and_update_status now st).auction.endDate)
  · rw [if_pos h1] at hE; cases hE; simp at h
  rw [if_neg h1] at hE
  by_cases h2 : (check_and_update_status now st).auction.auctionStatus ≠ .ongoing
  · rw [if_pos h2] at hE; cases hE; simp at h
  rw [if_neg h2] at hE
  push_neg at h2
  by_cases h3 : ¬(dep = true)
  · rw [if_pos h3] at hE; cases hE; simp at h
  rw [if_neg h3] at hE
  by_cases h4 : ¬((validate_price p
      (match get_current_highest_bid (check_and_update_status now st).bids aid with
        | some hb => hb.bidPrice + (check_and_update_status now st).auction.priceStep
        | none => (check_and_update_status now st).auction.priceStep) 999999999).1 = true)
  · rw [if_pos h4] at hE; cases hE; simp at h
  rw [if_neg h4] at hE
  have hbids : (check_and_update_status now st).bids = st.bids :=
    (caus_ongoing_inv now st h2).1
  have hend : (check_and_update_status now st).auction.endDate = st.auction.endDate :=
    caus_endDate now st
  have hlt : now < st.auction.endDate := (caus_ongoing_inv now st h2).2
  refine ⟨h2, ?_⟩
  by_cases h5 : (check_and_update_status now st).auction.endDate - now ≤ fiveMinutes
  · rw [if_pos h5] at hE
    set stMid : AuctionState :=
      { check_and_update_status now st with
        bids := create_bid (check_and_update_status now st).bids aid u p nid now } with hmid
    have hfix : check_and_update_status now stMid = stMid := by
      apply caus_fixed_of_ongoing
      · exact h2
      · exact lt_of_lt_of_le hlt (le_of_eq hend.symm)
    have hediff : now < (check_and_update_status now st).auction.endDate + fiveMinutes := by
      rw [hend]
      have : (0 : Int) < fiveMinutes := by norm_num [fiveMinutes]
      omega
    have hupd := update_auction_db_end_only hfix hediff
    rw [hupd] at hE
    cases hE
    refine ⟨?_, Or.inl ⟨by omega, ?_⟩⟩
    · simp [create_bid, hbids]
    · simp [hend]
  · rw [if_neg h5] at hE
    cases hE
    refine ⟨?_, Or.inr ⟨by rw [hend] at h5; omega, ?_⟩⟩
    · simp [create_bid, hbids]
    · exact hend


/-! ### Start and end dates across all code paths -/

theorem place_bid_startDate (now : Int) (u aid : Nat) (p : Int) (dep : Bool)
    (nid : Nat) (st : AuctionState) :
    (place_bid now u aid p dep nid st).1.auction.startDate =
      st.auction.startDate := by
  simp only [place_bid]
  split
  · rfl
  split
  · simp [caus_startDate]
  split
  · simp [caus_startDate]
  split
  · simp [caus_startDate]
  split
  · simp [caus_startDate]
  split
  · simp [update_auction_db_startDate, caus_startDate]
  · simp [caus_startDate]

theorem place_bid_endDate_mono (now : Int) (u aid : Nat) (p : Int) (dep : Bool)
    (nid : Nat) (st : AuctionState) :
    st.auction.endDate ≤ (place_bid now u aid p dep nid st).1.auction.endDate := by
  simp only [place_bid]
  split
  · exact le_refl _
  split
  · simp [caus_endDate]
  split
  · simp [caus_endDate]
  split
  · simp [caus_endDate]
  split
  · simp [caus_endDate]
  split
  · rw [update_auction_db_endDate]
    have h := caus_endDate now st
    simp only [AuctionState.bids] at h ⊢
    rw [show ({ check_and_update_status now st with
        bids := create_bid (check_and_update_status now st).bids aid u p nid now } :
          AuctionState).auction.endDate + fiveMinutes =
        (check_and_update_status now st).auction.endDate + fiveMinutes from rfl]
    rw [h]
    norm_num [fiveMinutes]
  · simp [caus_endDate]

theorem cancel_bid_startDate (now : Int) (u bid_id : Nat) (st : AuctionState) :
    (cancel_bid now u bid_id st).1.auction.startDate = st.auction.startDate := by
  simp only [cancel_bid]
  split
  · rfl
  split
  · rfl
  split
  · rfl
  split
  · rfl
  split
  · simp [caus_startDate]
  split
  · simp [caus_startDate]
  split <;>
    split <;>
      simp [update_auction_db_startDate, caus_startDate]

theorem cancel_bid_endDate_mono (now : Int) (u bid_id : Nat) (st : AuctionState) :
    st.auction.endDate ≤ (cancel_bid now u bid_id st).1.auction.endDate := by
  simp only [cancel_bid]
  split
  · exact le_refl _
  split
  · exact le_refl _
  split
  · exact le_refl _
  split
  · exact le_refl _
  split
  · simp [caus_endDate]
  split
  · simp [caus_endDate]
  split <;>
    split <;>
      simp [update_auction_db_endDate, caus_endDate] <;>
      norm_num [fiveMinutes]


/-! ### Concrete fixtures -/

/-- A live auction: price step 1000, window from 0 to 10000 seconds. -/
def sampleAuction : Auction :=
  { auctionID := 1, startDate := 0, endDate := 10000, priceStep := 1000,
    auctionStatus := .ongoing, bidWinnerID := none }

/-- A live auction with no bids yet. -/
def sampleState : AuctionState := { auction := sampleAuction, bids := [] }

/-- A scheduled auction: window from 1000 to 2000 seconds, no bids. -/
def scheduledState : AuctionState :=
  { auction := { auctionID := 1, startDate := 1000, endDate := 2000,
                 priceStep := 1000, auctionStatus := .scheduled,
                 bidWinnerID := none },
    bids := [] }

/-! ### Claim theorems -/

/-- Claim C4: for every successful PlaceBid committed when the time
remaining until the auction's end is at most five minutes, the auction's
end is increased by exactly five minutes measured from the pre-bid end
(not from `now`); a successful bid committed with more than five minutes
remaining leaves the end unchanged. -/
theorem place_bid_anti_snipe_extension (now : Int) (u aid : Nat) (p : Int)
    (dep : Bool) (nid : Nat) (st : AuctionState) (res : PlaceBidResult)
    (h : (place_bid now u aid p dep nid st).2 = .ok res) :
    (st.auction.endDate - now ≤ fiveMinutes →
      (place_bid now u aid p dep nid st).1.auction.endDate =
        st.auction.endDate + fiveMinutes) ∧
    (st.auction.endDate - now > fiveMinutes →
      (place_bid now u aid p dep nid st).1.auction.endDate =
        st.auction.endDate) := by
  rcases place_bid_ok_inv now u aid p dep nid st res h with ⟨-, -, hc | hc⟩
  · exact ⟨fun _ => hc.2, fun hgt => absurd hc.1 (by omega)⟩
  · exact ⟨fun hle => absurd hc.1 (by omega), fun _ => hc.2⟩

/-- Witness for C4: a bid placed with 200 seconds remaining extends the end
from 10000 to 10300. -/
theorem place_bid_anti_snipe_extension_witness :
    (place_bid 9800 7 1 11000 true 1 sampleState).1.auction.endDate =
      10000 + fiveMinutes :=
  (place_bid_anti_snipe_extension 9800 7 1 11000 true 1 sampleState
      { bid_id := 1, bid_status := .active, extended := true,
        end_date := 10300 } rfl).1 (by decide)

/-- Claim C5 (amended): lazy reconciliation, bid placement (with its
anti-snipe extension) and bid cancellation never change `startDate`, never
decrease `endDate`, and therefore preserve `end > start`.  The admin
update endpoint is NOT covered: it can decrease `endDate` and break
`end > start` (see the counterexample). -/
theorem engine_preserves_end_after_start (now : Int) (u aid bid_id : Nat)
    (p : Int) (dep : Bool) (nid : Nat) (st : AuctionState) :
    ((check_and_update_status now st).auction.startDate = st.auction.startDate ∧
     (check_and_update_status now st).auction.endDate = st.auction.endDate) ∧
    ((place_bid now u aid p dep nid st).1.auction.startDate =
        st.auction.startDate ∧
     st.auction.endDate ≤ (place_bid now u aid p dep nid st).1.auction.endDate) ∧
    ((cancel_bid now u bid_id st).1.auction.startDate = st.auction.startDate ∧
     st.auction.endDate ≤ (cancel_bid now u bid_id st).1.auction.endDate) ∧
    (st.auction.startDate < st.auction.endDate →
      (place_bid now u aid p dep nid st).1.auction.startDate <
        (place_bid now u aid p dep nid st).1.auction.endDate ∧
      (cancel_bid now u bid_id st).1.auction.startDate <
        (cancel_bid now u bid_id st).1.auction.endDate) := by
  refine ⟨⟨caus_startDate now st, caus_endDate now st⟩,
    ⟨place_bid_startDate now u aid p dep nid st,
     place_bid_endDate_mono now u aid p dep nid st⟩,
    ⟨cancel_bid_startDate now u bid_id st,
     cancel_bid_endDate_mono now u bid_id st⟩, fun hlt => ⟨?_, ?_⟩⟩
  · rw [place_bid_startDate now u aid p dep nid st]
    exact lt_of_lt_of_le hlt (place_bid_endDate_mono now u aid p dep nid st)
  · rw [cancel_bid_startDate now u bid_id st]
    exact lt_of_lt_of_le hlt (cancel_bid_endDate_mono now u bid_id st)

/-- Witness for C5 (amended) at a concrete state and inputs. -/
theorem engine_preserves_end_after_start_witness :
    (place_bid 100 7 1 1000 true 1 sampleState).1.auction.startDate <
      (place_bid 100 7 1 1000 true 1 sampleState).1.auction.endDate :=
  ((engine_preserves_end_after_start 100 7 1 1 1000 true 1
      sampleState).2.2.2 (by decide)).1

/-- Counterexample for C5 as stated: the admin update endpoint accepts an
endDate-only update of a SCHEDULED auction (date-range validation runs only
when both dates are supplied), moving `endDate` from 2000 down to 500 —
below `startDate = 1000` — so `end` decreases and `end > start` is broken. -/
theorem update_auction_api_decreases_end_cex :
    (update_auction_api 0 1 { endDate := some 500 } scheduledState).2 =
      .ok { auctionID := 1, startDate := 1000, endDate := 500,
            priceStep := 1000, auctionStatus := .scheduled,
            bidWinnerID := none } ∧
    (update_auction_api 0 1 { endDate := some 500 }
        scheduledState).1.auction.endDate = 500 ∧
    scheduledState.auction.endDate = 2000 ∧
    scheduledState.auction.startDate = 1000 ∧
    ((500 : Int) < 2000 ∧ (500 : Int) < 1000) :=
  ⟨rfl, rfl, rfl, rfl, by decide⟩

/-- Claim C7: for a fixed current time, reconciliation is idempotent; it
never moves a status backward along SCHEDULED, ONGOING, COMPLETED; and
reconciling a past-end auction with zero bids completes it without
touching the winner reference. -/
theorem reconcile_idempotent_monotone (now : Int) (st : AuctionState) :
    check_and_update_status now (check_and_update_status now st) =
      check_and_update_status now st ∧
    ((check_and_update_status now st).auction.auctionStatus =
        st.auction.auctionStatus ∨
     (st.auction.auctionStatus = .scheduled ∧
       (check_and_update_status now st).auction.auctionStatus = .ongoing) ∨
     (st.auction.auctionStatus = .scheduled ∧
       (check_and_update_status now st).auction.auctionStatus = .completed) ∨
     (st.auction.auctionStatus = .ongoing ∧
       (check_and_update_status now st).auction.auctionStatus = .completed)) ∧
    (st.bids = [] → now ≥ st.auction.endDate →
      (st.auction.auctionStatus = .ongoing ∨
        (st.auction.auctionStatus = .scheduled ∧
          now ≥ st.auction.startDate)) →
      (check_and_update_status now st).auction.auctionStatus = .completed ∧
      (check_and_update_status now st).auction.bidWinnerID =
        st.auction.bidWinnerID ∧
      (check_and_update_status now st).bids = []) :=
  ⟨caus_idem now st, caus_status_step now st, fun hb h2 h1 =>
    ⟨caus_completed_of now st h2 h1, (caus_of_empty hb).1, (caus_of_empty hb).2⟩⟩

/-- Witness for C7: a past-end ongoing auction with zero bids completes
with no winner. -/
theorem reconcile_idempotent_monotone_witness :
    (check_and_update_status 20000 sampleState).auction.auctionStatus =
      .completed ∧
    (check_and_update_status 20000 sampleState).auction.bidWinnerID =
      sampleState.auction.bidWinnerID ∧
    (check_and_update_status 20000 sampleState).bids = [] :=
  (reconcile_idempotent_monotone 20000 sampleState).2.2 rfl (by decide)
    (Or.inl rfl)


/-! ### The validation path of bid placement -/

theorem validate_price_false_iff (p m : Int) :
    (validate_price p m 999999999).1 = false ↔ (p < m ∨ p > 999999999) := by
  simp only [validate_price]
  split_ifs with h1 h2 <;> simp_all

theorem validate_price_tooHigh {p m : Int} (h1 : m ≤ p) (h2 : p > 999999999) :
    validate_price p m 999999999 = (false, some (.tooHigh 999999999)) := by
  simp [validate_price, not_lt.mpr h1, h2]

theorem place_bid_validation_path (now : Int) (u aid : Nat) (p : Int)
    (dep : Bool) (nid : Nat) (st : AuctionState) (min_bid : Int)
    (h0 : st.auction.auctionID = aid)
    (hrec : check_and_update_status now st = st)
    (hst : st.auction.auctionStatus = .ongoing)
    (hstart : st.auction.startDate ≤ now)
    (hdep : dep = true)
    (hmin : min_bid = (match get_current_highest_bid st.bids aid with
      | some hb => hb.bidPrice + st.auction.priceStep
      | none => st.auction.priceStep)) :
    ((validate_price p min_bid 999999999).1 = false →
      place_bid now u aid p dep nid st = (st, .error (.bidTooLow min_bid))) ∧
    ((validate_price p min_bid 999999999).1 = true →
      ∃ res, (place_bid now u aid p dep nid st).2 = .ok res) := by
  have hnow := caus_fixed_ongoing_end hrec hst
  have hw : ¬¬(st.auction.startDate ≤ now ∧ now ≤ st.auction.endDate) :=
    not_not_intro ⟨hstart, le_of_lt hnow⟩
  constructor
  · intro hv
    simp only [place_bid, hrec]
    rw [if_neg (by simp [h0]), if_neg hw, if_neg (by simp [hst]),
        if_neg (by simp [hdep]), if_pos (by simp [← hmin, hv])]
    rw [hmin]
  · intro hv
    simp only [place_bid, hrec]
    rw [if_neg (by simp [h0]), if_neg hw, if_neg (by simp [hst]),
        if_neg (by simp [hdep]), if_neg (by simp [← hmin, hv])]
    by_cases h5 : st.auction.endDate - now ≤ fiveMinutes
    · rw [if_pos h5]; exact ⟨_, rfl⟩
    · rw [if_neg h5]; exact ⟨_, rfl⟩

/-- Claim C10: PlaceBid rejects every bid whose amount exceeds 999999999
even when it satisfies the minimum-increment rule, and the rejection reuses
the bidTooLow error carrying the computed minimum, although the validator
itself failed with its upper-bound branch — the reported detail never
mentions the upper bound. -/
theorem place_bid_upper_bound_same_detail (now : Int) (u aid : Nat) (p : Int)
    (dep : Bool) (nid : Nat) (st : AuctionState) (min_bid : Int)
    (h0 : st.auction.auctionID = aid)
    (hrec : check_and_update_status now st = st)
    (hst : st.auction.auctionStatus = .ongoing)
    (hstart : st.auction.startDate ≤ now)
    (hdep : dep = true)
    (hmin : min_bid = (match get_current_highest_bid st.bids aid with
      | some hb => hb.bidPrice + st.auction.priceStep
      | none => st.auction.priceStep))
    (hge : min_bid ≤ p) (hover : p > 999999999) :
    place_bid now u aid p dep nid st = (st, .error (.bidTooLow min_bid)) ∧
    validate_price p min_bid 999999999 =
      (false, some (.tooHigh 999999999)) := by
  have hv : (validate_price p min_bid 999999999).1 = false := by
    rw [validate_price_tooHigh hge hover]
  exact ⟨(place_bid_validation_path now u aid p dep nid st min_bid h0 hrec hst
      hstart hdep hmin).1 hv, validate_price_tooHigh hge hover⟩

/-- Witness for C10: a bid of 1000000000 on the empty sample auction is
rejected with detail minimum 1000. -/
theorem place_bid_upper_bound_same_detail_witness :
    place_bid 100 7 1 1000000000 true 1 sampleState =
      (sampleState, .error (.bidTooLow 1000)) :=
  (place_bid_upper_bound_same_detail 100 7 1 1000000000 true 1 sampleState
      1000 rfl rfl rfl (by decide) rfl rfl (by decide) (by decide)).1

/-- Claim C6 (amended): with the computed minimum
`min_bid = currentPrice + priceStep` (or `priceStep` alone with no counted
bid), PlaceBid rejects with bidTooLow carrying that minimum exactly when
`amount < min_bid` OR `amount > 999999999`; any bidTooLow error carries
`min_bid`; a bid equal to the current price is always rejected when
`priceStep > 0`; and a bid equal to `min_bid` is not rejected as too low
provided it does not exceed 999999999. -/
theorem place_bid_too_low_iff (now : Int) (u aid : Nat) (p : Int)
    (dep : Bool) (nid : Nat) (st : AuctionState) (min_bid : Int)
    (h0 : st.auction.auctionID = aid)
    (hrec : check_and_update_status now st = st)
    (hst : st.auction.auctionStatus = .ongoing)
    (hstart : st.auction.startDate ≤ now)
    (hdep : dep = true)
    (hmin : min_bid = (match get_current_highest_bid st.bids aid with
      | some hb => hb.bidPrice + st.auction.priceStep
      | none => st.auction.priceStep)) :
    (((place_bid now u aid p dep nid st).2 = .error (.bidTooLow min_bid)) ↔
      (p < min_bid ∨ p > 999999999)) ∧
    (∀ m, (place_bid now u aid p dep nid st).2 = .error (.bidTooLow m) →
      m = min_bid) ∧
    (0 < st.auction.priceStep →
      p = (match get_current_highest_bid st.bids aid with
            | some hb => hb.bidPrice
            | none => 0) →
      (place_bid now u aid p dep nid st).2 = .error (.bidTooLow min_bid)) ∧
    (p = min_bid → p ≤ 999999999 →
      ∀ m, (place_bid now u aid p dep nid st).2 ≠ .error (.bidTooLow m)) := by
  have hpath := place_bid_validation_path now u aid p dep nid st min_bid h0
    hrec hst hstart hdep hmin
  have hiff := validate_price_false_iff p min_bid
  have herr : ∀ m, (place_bid now u aid p dep nid st).2 =
      .error (.bidTooLow m) → (validate_price p min_bid 999999999).1 = false ∧
      m = min_bid := by
    intro m hm
    cases hvb : (validate_price p min_bid 999999999).1 with
    | true =>
      rcases hpath.2 hvb with ⟨res, hres⟩
      rw [hres] at hm
      simp at hm
    | false =>
      have := hpath.1 hvb
      rw [this] at hm
      simp at hm
      exact ⟨rfl, hm.symm⟩
  refine ⟨⟨fun hm => hiff.mp (herr min_bid hm).1,
    fun hc => by rw [(hpath.1 (hiff.mpr hc))]⟩,
    fun m hm => (herr m hm).2, ?_, ?_⟩
  · intro hstep hcur
    have hlt : p < min_bid := by
      rcases hq : get_current_highest_bid st.bids aid with _ | hb
      · rw [hq] at hmin hcur
        simp only at hmin hcur
        rw [hmin, hcur]
        exact hstep
      · rw [hq] at hmin hcur
        simp only at hmin hcur
        rw [hmin, hcur]
        exact lt_add_of_pos_right _ hstep
    exact by rw [(hpath.1 (hiff.mpr (Or.inl hlt)))]
  · intro hpe hple m hm
    have hvb : (validate_price p min_bid 999999999).1 = false := (herr m hm).1
    rw [hiff] at hvb
    omega

/-- Witness for C6 (amended): on the empty sample auction a bid of 999 is
rejected with minimum 1000 and a bid of 1000 is not. -/
theorem place_bid_too_low_iff_witness :
    (place_bid 100 7 1 999 true 1 sampleState).2 =
      .error (.bidTooLow 1000) :=
  ((place_bid_too_low_iff 100 7 1 999 true 1 sampleState 1000 rfl rfl rfl
      (by decide) rfl rfl).1).mpr (Or.inl (by decide))

/-- Counterexample for C6 as stated: on the empty sample auction the
computed minimum is `priceStep = 1000` and the amount 1000000000 satisfies
the minimum-increment rule, yet PlaceBid rejects it as too low — rejection
is not "exactly when amount < currentPrice + priceStep". -/
theorem place_bid_min_rule_not_iff_cex :
    (place_bid 100 7 1 1000000000 true 1 sampleState).2 =
      .error (.bidTooLow 1000) ∧
    get_current_highest_bid sampleState.bids 1 = none ∧
    sampleState.auction.priceStep = 1000 ∧
    ¬((1000000000 : Int) < 1000) :=
  ⟨rfl, rfl, rfl, by decide⟩

/-- Claim C9: a successful PlaceBid commit is never undone by notification
failures: the bid insert and anti-snipe extension happen before the
notification fan-out, and an exception at any point of the fan-out is
swallowed, leaving the database state and the success response identical to
the failure-free run, with the committed bid present. -/
theorem place_bid_notify_failures_swallowed (now : Int) (u aid : Nat)
    (p : Int) (dep : Bool) (nid : Nat) (st : AuctionState)
    (notifs : List NotificationRow) (failure : Option NotifyFailure) :
    (place_bid_with_notify now u aid p dep nid st notifs failure).1 =
      (place_bid now u aid p dep nid st).1 ∧
    (place_bid_with_notify now u aid p dep nid st notifs failure).2.2 =
      (place_bid now u aid p dep nid st).2 ∧
    (∀ res, (place_bid now u aid p dep nid st).2 = .ok res →
      new_bid aid u p nid now ∈
        (place_bid_with_notify now u aid p dep nid st notifs failure).1.bids) := by
  rcases hr : place_bid now u aid p dep nid st with ⟨stR, rr⟩
  have hbids : ∀ res, rr = .ok res → stR.bids =
      st.bids ++ [new_bid aid u p nid now] := by
    intro res hres
    have := (place_bid_ok_inv now u aid p dep nid st res
      (by rw [hr, hres])).2.1
    rw [hr] at this
    exact this
  cases rr with
  | error e => exact ⟨by simp [place_bid_with_notify, hr], by simp [place_bid_with_notify, hr], by simp⟩
  | ok res0 =>
    refine ⟨by simp [place_bid_with_notify, hr], by simp [place_bid_with_notify, hr], ?_⟩
    intro res hres
    simp only at hres
    simp only [place_bid_with_notify, hr]
    rw [hbids res hres]
    simp

/-- Witness for C9: the committed bid survives an e-mail failure. -/
theorem place_bid_notify_failures_swallowed_witness :
    new_bid 1 7 1000 1 100 ∈
      (place_bid_with_notify 100 7 1 1000 true 1 sampleState []
          (some .emailRaises)).1.bids :=
  (place_bid_notify_failures_swallowed 100 7 1 1000 true 1 sampleState []
      (some .emailRaises)).2.2
    { bid_id := 1, bid_status := .active, extended := false,
      end_date := 10000 } rfl


/-! ### Sequences of bid placements -/

/-- One bid-placement request against a fixed auction. -/
structure BidRequest where
  now : Int
  user_id : Nat
  bid_price : Int
  has_deposit : Bool
  new_id : Nat
  deriving DecidableEq, Repr

/-- Fold a list of placement requests through `place_bid`. -/
def run_bids (aid : Nat) : AuctionState → List BidRequest → AuctionState
  | st, [] => st
  | st, r :: rs =>
    run_bids aid
      (place_bid r.now r.user_id aid r.bid_price r.has_deposit r.new_id st).1 rs

/-- Every placement in the sequence returns success. -/
def all_succeed (aid : Nat) : AuctionState → List BidRequest → Prop
  | _, [] => True
  | st, r :: rs =>
    (∃ res, (place_bid r.now r.user_id aid r.bid_price r.has_deposit
        r.new_id st).2 = Except.ok res) ∧
    all_succeed aid
      (place_bid r.now r.user_id aid r.bid_price r.has_deposit r.new_id st).1 rs

/-- Claim C1 (amended): a successful PlaceBid appends the new bid with
status ACTIVE and leaves every existing bid row unchanged — the previous
highest bid stays ACTIVE and no bid is ever transitioned to OUTBID;
consequently after any sequence of N successful placements on an initially
empty auction all N bids are ACTIVE (the de-facto leader being the
highest-priced one), not one ACTIVE and N-1 OUTBID. -/
theorem place_bid_keeps_all_bids_active (aid : Nat) (st : AuctionState)
    (rs : List BidRequest)
    (h0 : ∀ b ∈ st.bids, b.bidStatus = .active)
    (hs : all_succeed aid st rs) :
    (∀ now u p dep nid res, (place_bid now u aid p dep nid st).2 = .ok res →
      (place_bid now u aid p dep nid st).1.bids =
        st.bids ++ [new_bid aid u p nid now]) ∧
    (run_bids aid st rs).bids.length = st.bids.length + rs.length ∧
    (∀ b ∈ (run_bids aid st rs).bids, b.bidStatus = .active) := by
  refine ⟨fun now u p dep nid res h =>
    (place_bid_ok_inv now u aid p dep nid st res h).2.1, ?_⟩
  induction rs generalizing st with
  | nil => exact ⟨by simp [run_bids], by simpa [run_bids] using h0⟩
  | cons r rs ih =>
    rcases hs with ⟨⟨res, hok⟩, hrest⟩
    have hshape := (place_bid_ok_inv r.now r.user_id aid r.bid_price
      r.has_deposit r.new_id st res hok).2.1
    have hall : ∀ b ∈ (place_bid r.now r.user_id aid r.bid_price
        r.has_deposit r.new_id st).1.bids, b.bidStatus = .active := by
      rw [hshape]
      intro b hb
      rcases List.mem_append.mp hb with hb | hb
      · exact h0 b hb
      · rw [List.mem_singleton.mp hb]; rfl
    have hrec := ih _ hall hrest
    refine ⟨?_, ?_⟩
    · simp only [run_bids]
      rw [hrec.1, hshape]
      simp
      omega
    · simp only [run_bids]
      exact hrec.2

/-- Witness for C1 (amended): two successful placements on the empty sample
auction leave two bids, both ACTIVE. -/
theorem place_bid_keeps_all_bids_active_witness :
    (run_bids 1 sampleState
        [⟨100, 7, 1000, true, 1⟩, ⟨200, 8, 2000, true, 2⟩]).bids.length =
      sampleState.bids.length + 2 :=
  (place_bid_keeps_all_bids_active 1 sampleState
      [⟨100, 7, 1000, true, 1⟩, ⟨200, 8, 2000, true, 2⟩]
      (by intro b hb; simp [sampleState] at hb)
      ⟨⟨{ bid_id := 1, bid_status := .active, extended := false,
          end_date := 10000 }, rfl⟩,
       ⟨{ bid_id := 2, bid_status := .active, extended := false,
          end_date := 10000 }, rfl⟩, trivial⟩).2.1

/-- Counterexample for C1 as stated: after two successful placements (1000
then 2000) on the empty sample auction, both bids are ACTIVE and none is
OUTBID — not one ACTIVE and one OUTBID; the previous highest bid was never
transitioned. -/
theorem place_bid_no_outbid_transition_cex :
    (place_bid 100 7 1 1000 true 1 sampleState).2 =
      .ok { bid_id := 1, bid_status := .active, extended := false,
            end_date := 10000 } ∧
    (place_bid 200 8 1 2000 true 2
        (place_bid 100 7 1 1000 true 1 sampleState).1).2 =
      .ok { bid_id := 2, bid_status := .active, extended := false,
            end_date := 10000 } ∧
    ((place_bid 200 8 1 2000 true 2
        (place_bid 100 7 1 1000 true 1 sampleState).1).1.bids.filter
          (fun b => b.bidStatus == .active)).length = 2 ∧
    (∀ b ∈ (place_bid 200 8 1 2000 true 2
        (place_bid 100 7 1 1000 true 1 sampleState).1).1.bids,
      b.bidStatus ≠ .outbid) :=
  ⟨rfl, rfl, by decide, by decide⟩


/-! ### Bid cancellation -/

/-- Claim C3: when the bid being cancelled is the current highest counted
bid of an ongoing auction, cancellation with at most ten minutes remaining
is refused with InvalidState and changes nothing, while cancellation with
more than ten minutes remaining succeeds and extends the auction's end by
exactly five minutes.  (The claim's "less than 10 minutes" case is the
first conjunct; the code refuses up to and including exactly ten
minutes.) -/
theorem cancel_bid_leading_gate (now : Int) (req bid_id : Nat)
    (st : AuctionState) (b : Bid)
    (hget : get_bid st.bids bid_id = some b)
    (howner : b.userID = req)
    (hactive : b.bidStatus = .active)
    (haid : st.auction.auctionID = b.auctionID)
    (hst : st.auction.auctionStatus = .ongoing)
    (hhigh : get_current_highest_bid st.bids b.auctionID = some b) :
    (0 < st.auction.endDate - now → st.auction.endDate - now ≤ tenMinutes →
      cancel_bid now req bid_id st = (st, .error .invalidState)) ∧
    (st.auction.endDate - now > tenMinutes →
      (cancel_bid now req bid_id st).2 = .ok () ∧
      (cancel_bid now req bid_id st).1.auction.endDate =
        st.auction.endDate + fiveMinutes ∧
      (cancel_bid now req bid_id st).1.bids = st.bids.map fun x =>
        if x.bidID == bid_id then { x with bidStatus := .cancelled }
        else x) := by
  constructor
  · intro hpos hle
    have hfix : check_and_update_status now st = st :=
      caus_fixed_of_ongoing now st hst (by omega)
    simp only [cancel_bid, hget, hfix]
    rw [if_neg (by simp [howner]), if_neg (by simp [hactive]),
        if_neg (by simp [haid]), if_neg (by omega :
          ¬(st.auction.endDate - now ≤ 0)), hhigh,
        if_pos ⟨by simp [howner], hle⟩]
  · intro hgt
    have hfix : check_and_update_status now st = st :=
      caus_fixed_of_ongoing now st hst
        (by simp only [tenMinutes] at hgt; omega)
    have hext := update_auction_db_end_only hfix
      (show now < st.auction.endDate + fiveMinutes by
        simp only [tenMinutes] at hgt; simp only [fiveMinutes]; omega)
    simp only [cancel_bid, hget, hfix]
    rw [if_neg (by simp [howner]), if_neg (by simp [hactive]),
        if_neg (by simp [haid]),
        if_neg (show ¬(st.auction.endDate - now ≤ 0) by
          simp only [tenMinutes] at hgt; omega),
        hhigh,
        if_neg (fun hc => absurd hc.2 (not_le.mpr hgt)),
        if_pos ⟨by simp [howner], hgt⟩, hext]
    simp only [cancel_bid_db, hget]
    rw [if_neg (by simp [howner])]
    exact ⟨rfl, rfl, rfl⟩

/-- A leader bid on the sample auction. -/
def leaderState : AuctionState :=
  { auction := sampleAuction,
    bids := [{ bidID := 1, auctionID := 1, userID := 10, bidPrice := 50000,
               bidStatus := .active, createdAt := 1 }] }

/-- Witness for C3: the leader cancelling with 900 seconds (15 minutes)
remaining succeeds and the end moves from 10000 to 10300; the same
cancellation with 480 seconds (8 minutes) remaining is refused. -/
theorem cancel_bid_leading_gate_witness :
    ((cancel_bid 9100 10 1 leaderState).2 = .ok () ∧
      (cancel_bid 9100 10 1 leaderState).1.auction.endDate =
        10000 + fiveMinutes) ∧
    cancel_bid 9520 10 1 leaderState = (leaderState, .error .invalidState) :=
  ⟨⟨((cancel_bid_leading_gate 9100 10 1 leaderState _ rfl rfl rfl rfl rfl
        rfl).2 (by decide)).1,
    ((cancel_bid_leading_gate 9100 10 1 leaderState _ rfl rfl rfl rfl rfl
        rfl).2 (by decide)).2.1⟩,
   (cancel_bid_leading_gate 9520 10 1 leaderState _ rfl rfl rfl rfl rfl
        rfl).1 (by decide) (by decide)⟩


/-- Claim C8: on an already-reconciled state, CancelBid fails with NotFound
when the bid is absent, PermissionDenied when the requester is not the
owner, InvalidState when the bid is not ACTIVE or the auction has ended —
each failure leaving the state unchanged — and otherwise (when the
leading-bid gate does not refuse) succeeds, changing exactly the cancelled
bid's status to CANCELLED and no other bid's status. -/
theorem cancel_bid_checks (now : Int) (req bid_id : Nat) (st : AuctionState)
    (hrec : check_and_update_status now st = st) :
    (get_bid st.bids bid_id = none →
      cancel_bid now req bid_id st = (st, .error .notFound)) ∧
    (∀ b, get_bid st.bids bid_id = some b → b.userID ≠ req →
      cancel_bid now req bid_id st = (st, .error .permissionDenied)) ∧
    (∀ b, get_bid st.bids bid_id = some b → b.userID = req →
      b.bidStatus ≠ .active →
      cancel_bid now req bid_id st = (st, .error .invalidState)) ∧
    (∀ b, get_bid st.bids bid_id = some b → b.userID = req →
      b.bidStatus = .active → st.auction.auctionID = b.auctionID →
      now ≥ st.auction.endDate →
      cancel_bid now req bid_id st = (st, .error .invalidState)) ∧
    (∀ b, get_bid st.bids bid_id = some b → b.userID = req →
      b.bidStatus = .active → st.auction.auctionID = b.auctionID →
      now < st.auction.endDate →
      ((match get_current_highest_bid st.bids b.auctionID with
        | some hb => hb.userID = req
        | none => False) → tenMinutes < st.auction.endDate - now) →
      (cancel_bid now req bid_id st).2 = .ok () ∧
      (cancel_bid now req bid_id st).1.bids = st.bids.map fun x =>
        if x.bidID == bid_id then { x with bidStatus := .cancelled }
        else x) := by
  refine ⟨?_, ?_, ?_, ?_, ?_⟩
  · intro hnone
    simp only [cancel_bid, hnone]
  · intro b hget hne
    simp only [cancel_bid, hget]
    rw [if_pos hne]
  · intro b hget howner hstat
    simp only [cancel_bid, hget]
    rw [if_neg (by simp [howner]), if_pos hstat]
  · intro b hget howner hstat haid hend
    simp only [cancel_bid, hget, hrec]
    rw [if_neg (by simp [howner]), if_neg (by simp [hstat]),
        if_neg (by simp [haid]),
        if_pos (show st.auction.endDate - now ≤ 0 by omega)]
  · intro b hget howner hstat haid hlt hgate
    simp only [cancel_bid, hget, hrec]
    rw [if_neg (by simp [howner]), if_neg (by simp [hstat]),
        if_neg (by simp [haid]),
        if_neg (show ¬(st.auction.endDate - now ≤ 0) by omega)]
    rcases hq : get_current_highest_bid st.bids b.auctionID with _ | hb
    · rw [if_neg (by simp), if_neg (by simp)]
      simp only [cancel_bid_db, hget]
      rw [if_neg (by simp [howner])]
      exact ⟨rfl, rfl⟩
    · rw [hq] at hgate
      by_cases hl : hb.userID = req
      · have hgt := hgate hl
        have hext := update_auction_db_end_only hrec
          (show now < st.auction.endDate + fiveMinutes by
            simp only [fiveMinutes]; omega)
        rw [if_neg (fun hc => absurd hc.2 (not_le.mpr hgt)),
            if_pos ⟨by simp [hl], hgt⟩, hext]
        simp only [cancel_bid_db, hget]
        rw [if_neg (by simp [howner])]
        exact ⟨rfl, rfl⟩
      · rw [if_neg (fun hc => hl (by simpa using hc.1)),
            if_neg (fun hc => hl (by simpa using hc.1))]
        simp only [cancel_bid_db, hget]
        rw [if_neg (by simp [howner])]
        exact ⟨rfl, rfl⟩

/-- Witness for C8: on the leader state, cancelling a missing bid is
NotFound, a stranger's cancel is PermissionDenied, and the owner's cancel
far from the end succeeds, cancelling exactly that bid. -/
theorem cancel_bid_checks_witness :
    cancel_bid 100 10 99 leaderState = (leaderState, .error .notFound) ∧
    cancel_bid 100 77 1 leaderState =
      (leaderState, .error .permissionDenied) ∧
    (cancel_bid 100 10 1 leaderState).2 = .ok () :=
  ⟨(cancel_bid_checks 100 10 99 leaderState rfl).1 rfl,
   (cancel_bid_checks 100 77 1 leaderState rfl).2.1 _ rfl (by decide),
   ((cancel_bid_checks 100 10 1 leaderState rfl).2.2.2.2 _ rfl rfl rfl rfl
      (by decide) (fun h => by decide)).1⟩

end AuctionHub
